import Mathlib

/-!
Verification development for the UniWeb social-network application
(`SocialWeb/views.py`, `SocialWeb/models.py`).

The graph store is embedded shallowly: each node kind becomes a structure,
edge sets become lists, and each view handler becomes a pure function from
the relevant part of the store (plus request data) to its response and the
updated store fragment.  Timestamps are natural numbers (the code coalesces
a missing `created_at` to `0` before comparing).  The best-effort
`Notification(...).save()` calls sit inside `try/except: pass` blocks; each
operation that performs one takes a `notifOk : Bool` flag telling whether
that store write succeeds, and returns the list of notifications actually
persisted.
-/

namespace UniWeb

/-- A `Post` node (models.py, class `Post`): the fields the feed logic reads. -/
structure Post where
  uid : String
  title : String
  author_username : String
  author_uid : String
  hashtags : List String
  created_at : Nat
deriving DecidableEq, Repr

/-- A `User` node: the identity fields the handlers read. -/
structure UserRec where
  username : String
  uid : String
deriving DecidableEq, Repr

/-- A `Comment` node (models.py, class `Comment`): the scalar fields. -/
structure CommentRec where
  uid : String
  text : String
  author_username : String
  author_uid : String
deriving DecidableEq, Repr

/-- A `Notification` node (models.py, class `Notification`). -/
structure NotificationRec where
  to_username : String
  to_uid : String
  from_username : String
  from_uid : String
  type : String
  target_uid : String
  element_type : String
  seen : Bool
deriving DecidableEq, Repr

/-- A `Message` node (models.py, class `Message`). -/
structure Message where
  uid : String
  sender_username : String
  sender_uid : String
  receiver_username : String
  receiver_uid : String
  text : Option String
  image_url : Option String
  seen : Bool
  created_at : Nat
deriving DecidableEq, Repr

/-- Python string slicing `s[:n]` over code points. -/
def strTake (s : String) (n : Nat) : String := ⟨s.data.take n⟩

/-- Python `s.strip()`: remove leading and trailing whitespace. -/
def pyStrip (s : String) : String :=
  ⟨(((s.data.dropWhile Char.isWhitespace).reverse).dropWhile Char.isWhitespace).reverse⟩

/-- The truncation idiom `if len(s) > n: s = s[:n]`. -/
def pyTruncate (s : String) (n : Nat) : String :=
  if n < s.length then strTake s n else s

/-! ### Feed composition (`home`, views.py lines 57-100) -/

/-- The comparison behind the feed sort: `created_at` descending
(views.py line 71, `all_posts.sort(key=..., reverse=True)`). -/
def postDescLe (a b : Post) : Bool := decide (b.created_at ≤ a.created_at)

/-- The corpus `all_posts` after the descending stable sort
(views.py lines 68-71). -/
def sortedPosts (allPosts : List Post) : List Post := allPosts.mergeSort postDescLe

/-- The viewer's interests `my_interests`: lowercased hashtags over the
viewer's own posts (views.py lines 81-85). -/
def interestsOf (username : String) (sorted : List Post) : List String :=
  ((sorted.filter (fun p => decide (p.author_username = username))).map
    (fun p => p.hashtags.map (fun t => t.toLower))).flatten

/-- Group 1, `feed_following`: posts whose author the viewer follows
(views.py line 87). -/
def group1 (sorted : List Post) (following : List String) : List Post :=
  sorted.filter (fun p => decide (p.author_username ∈ following))

/-- Group 2, `feed_interests`: remaining posts sharing a lowercased hashtag
with the viewer's interests (views.py lines 88-89; `picked` holds group 1). -/
def group2 (username : String) (sorted : List Post) (following : List String) : List Post :=
  sorted.filter (fun p =>
    decide (p ∉ group1 sorted following) &&
    p.hashtags.any (fun t => decide (t.toLower ∈ interestsOf username sorted)))

/-- Group 3, `feed_latest`: all remaining posts (views.py lines 90-91). -/
def group3 (username : String) (sorted : List Post) (following : List String) : List Post :=
  sorted.filter (fun p =>
    decide (p ∉ group1 sorted following) &&
    decide (p ∉ group2 username sorted following))

/-- The feed after concatenation and the self-author filter, before the
truncation to 20 (views.py lines 93-95). -/
def homeFeedPre (username : String) (allPosts : List Post) (following : List String) :
    List Post :=
  let sorted := sortedPosts allPosts
  ((group1 sorted following ++ group2 username sorted following ++
      group3 username sorted following).filter
    (fun p => decide (p.author_username ≠ username)))

/-- The feed returned by `home` (views.py line 97, `feed[:20]`). -/
def homeFeed (username : String) (allPosts : List Post) (following : List String) :
    List Post :=
  (homeFeedPre username allPosts following).take 20

/-- A corpus of 21 posts, all authored by "a", newest first. -/
def manyPosts : List Post :=
  (List.range 21).map (fun i => ⟨toString i, "t", "a", "ua", [], 21 - i⟩)

/-! ### Comment store and root-post resolution -/

/-- The slice of the graph store the comment/reply logic touches:
`HAS_COMMENT` edges are (post uid, comment uid) pairs, `HAS_REPLY` edges are
(parent comment uid, reply uid) pairs. -/
structure Store where
  posts : List Post
  comments : List CommentRec
  postEdges : List (String × String)
  replyEdges : List (String × String)
deriving DecidableEq, Repr

/-- The uid of `comment.on_post.all()[0]`: the first post reached by an
incoming `HAS_COMMENT` edge, if any. -/
def onPostFirst (st : Store) (c : String) : Option String :=
  ((st.postEdges.filter (fun e => e.2 == c)).map (fun e => e.1)).head?

/-- The uid of `comment.on_comment.all()[0]`: the first parent comment
reached by an incoming `HAS_REPLY` edge, if any. -/
def onCommentFirst (st : Store) (c : String) : Option String :=
  ((st.replyEdges.filter (fun e => e.2 == c)).map (fun e => e.1)).head?

/-- Whether `Comment.nodes.get(uid=c)` finds a comment. -/
def commentExists (st : Store) (c : String) : Bool :=
  st.comments.any (fun cc => cc.uid == c)

/-- The ancestor walk of `_resolve_post_uid_for_comment` (views.py lines
981-993), with explicit fuel: `some r` means the walk returned `r` (where `r`
is the function's `post uid | None` result), `none` that it was still running
after `fuel` parent steps. -/
def resolveLoop (st : Store) (fuel : Nat) (c : String) : Option (Option String) :=
  match onPostFirst st c with
  | some p => some (some p)
  | none =>
    match onCommentFirst st c with
    | none => some none
    | some parent =>
      match fuel with
      | 0 => none
      | fuel' + 1 => resolveLoop st fuel' parent

/-- The function `_resolve_post_uid_for_comment` (views.py lines 979-996): a
missing comment returns `None` (the `DoesNotExist` branch), otherwise the
ancestor walk runs. -/
def resolvePostUidForComment (st : Store) (fuel : Nat) (c : String) :
    Option (Option String) :=
  if commentExists st c then resolveLoop st fuel c else some none

/-- The reply-parent ancestor chain of `c` is finite and resolves to `r`:
`some p` when the first ancestor carrying a post edge yields post `p`,
`none` when the chain ends without reaching any post. -/
inductive ChainResolves (st : Store) : String → Option String → Prop
  | direct (c p : String) : onPostFirst st c = some p → ChainResolves st c (some p)
  | dead (c : String) : onPostFirst st c = none → onCommentFirst st c = none →
      ChainResolves st c none
  | step (c c' : String) (r : Option String) : onPostFirst st c = none →
      onCommentFirst st c = some c' → ChainResolves st c' r → ChainResolves st c r

/-- A concrete store: post "P" owns top-level comment "t0"; replies
"c1" ← "c2" ← "r3" nest three levels below it. -/
def resolveStore : Store :=
  { posts := [⟨"P", "t", "a", "ua", [], 1⟩],
    comments := [⟨"t0", "x", "a", "ua"⟩, ⟨"c1", "x", "b", "ub"⟩,
      ⟨"c2", "x", "a", "ua"⟩, ⟨"r3", "x", "b", "ub"⟩],
    postEdges := [("P", "t0")],
    replyEdges := [("t0", "c1"), ("c1", "c2"), ("c2", "r3")] }

/-! ### Messaging (`chat_messages` / `chat_send`, views.py lines 484-556) -/

/-- The comparison behind the thread sort: `created_at` ascending
(views.py line 505). -/
def msgAscLe (a b : Message) : Bool := decide (a.created_at ≤ b.created_at)

/-- Whether message `m` was sent from `sender` to `receiver`. -/
def msgDir (sender receiver : String) (m : Message) : Bool :=
  m.sender_username == sender && m.receiver_username == receiver

/-- The merged, ascending-sorted thread built by `chat_messages`
(views.py lines 495-505): both directions fetched and concatenated, then
stably sorted by `created_at`. -/
def threadMsgs (msgs : List Message) (me other : String) : List Message :=
  (msgs.filter (msgDir me other) ++ msgs.filter (msgDir other me)).mergeSort msgAscLe

/-- The seen-marking pass of `chat_messages` (views.py lines 506-513): every
fetched message addressed to the caller is saved with `seen := true`. -/
def markThreadSeen (msgs : List Message) (me other : String) : List Message :=
  msgs.map (fun m =>
    if (msgDir me other m || msgDir other me m) && m.receiver_username == me then
      { m with seen := true }
    else m)

/-- The handler `chat_messages` (views.py lines 484-516): the returned thread
and the updated message store. -/
def chatMessages (msgs : List Message) (me other : String) :
    List Message × List Message :=
  (threadMsgs msgs me other, markThreadSeen msgs me other)

/-- The handler `chat_send` (views.py lines 519-556): `none` is the 400
validation error; the text is stripped then truncated to 2000 characters, and
the created message stores `text or None` / `image_url or None`. -/
def chatSend (me target : UserRec) (textRaw imageUrl : String) (newUid : String)
    (now : Nat) : Option Message :=
  let text := pyStrip textRaw
  let text := pyTruncate text 2000
  if text = "" ∧ imageUrl = "" then none
  else some { uid := newUid, sender_username := me.username, sender_uid := me.uid,
              receiver_username := target.username, receiver_uid := target.uid,
              text := if text = "" then none else some text,
              image_url := if imageUrl = "" then none else some imageUrl,
              seen := false, created_at := now }

/-- A message a user sent to themself. -/
def selfMsg : Message :=
  ⟨"m1", "a", "ua", "a", "ua", some "hi", none, false, 1⟩

/-! ### Like toggles (views.py lines 729-770 and 900-939) -/

/-- The like-relevant state of a post or comment: identity, author snapshot
and the `liked_by` edge set (usernames, in store order). -/
structure LikeTarget where
  uid : String
  author_username : String
  author_uid : String
  likedBy : List String
deriving DecidableEq, Repr

/-- The handler `post_like_toggle` (views.py lines 744-770): the JSON
response `(liked, likes)`, the updated target, and the notifications
persisted. -/
def postLikeToggle (post : LikeTarget) (user : UserRec) (notifOk : Bool) :
    (Bool × Nat) × LikeTarget × List NotificationRec :=
  if post.likedBy.any (fun u => u == user.username) then
    let post' := { post with likedBy := post.likedBy.filter (fun u => !(u == user.username)) }
    ((false, post'.likedBy.length), post', [])
  else
    let post' := { post with likedBy := post.likedBy ++ [user.username] }
    let notifs :=
      if post.author_username ≠ user.username then
        (if notifOk then
          [{ to_username := post.author_username, to_uid := post.author_uid,
             from_username := user.username, from_uid := user.uid,
             type := "like_post", target_uid := post.uid, element_type := "post",
             seen := false }]
         else [])
      else []
    ((true, post'.likedBy.length), post', notifs)

/-- The handler `comment_like_toggle` (views.py lines 914-939): identical
toggle logic, with a `like_comment` notification. -/
def commentLikeToggle (comment : LikeTarget) (user : UserRec) (notifOk : Bool) :
    (Bool × Nat) × LikeTarget × List NotificationRec :=
  if comment.likedBy.any (fun u => u == user.username) then
    let comment' := { comment with
      likedBy := comment.likedBy.filter (fun u => !(u == user.username)) }
    ((false, comment'.likedBy.length), comment', [])
  else
    let comment' := { comment with likedBy := comment.likedBy ++ [user.username] }
    let notifs :=
      if comment.author_username ≠ user.username then
        (if notifOk then
          [{ to_username := comment.author_username, to_uid := comment.author_uid,
             from_username := user.username, from_uid := user.uid,
             type := "like_comment", target_uid := comment.uid,
             element_type := "comment", seen := false }]
         else [])
      else []
    ((true, comment'.likedBy.length), comment', notifs)

/-! ### Follow toggle (`follow_toggle`, views.py lines 942-976) -/

/-- The handler `follow_toggle`: `none` is the 400 response for self-follow;
otherwise the `following` response flag, the updated following set of `me`,
and the notifications persisted. -/
def followToggle (me target : UserRec) (following : List String) (notifOk : Bool) :
    Option (Bool × List String × List NotificationRec) :=
  if me.username = target.username then none
  else if following.contains target.username then
    some (false, following.filter (fun u => !(u == target.username)), [])
  else
    some (true, following ++ [target.username],
      if notifOk then
        [{ to_username := target.username, to_uid := target.uid,
           from_username := me.username, from_uid := me.uid,
           type := "follow", target_uid := me.username, element_type := "account",
           seen := false }]
      else [])

/-! ### Comment and reply creation (views.py lines 814-897) -/

/-- Lookup `Post.nodes.get(uid=...)` over the store. -/
def findPost (st : Store) (uid : String) : Option Post :=
  st.posts.find? (fun p => p.uid == uid)

/-- Lookup `Comment.nodes.get(uid=...)` over the store. -/
def findComment (st : Store) (uid : String) : Option CommentRec :=
  st.comments.find? (fun c => c.uid == uid)

/-- Outcome of `post_add_comment` / `post_add_reply`: 404, the 400
empty-text error, or success carrying the updated store, the created comment
and the persisted notifications. -/
inductive AddResult where
  | notFound
  | emptyText
  | ok (st : Store) (c : CommentRec) (notifs : List NotificationRec)
deriving DecidableEq, Repr

/-- The notification-free projection of an `AddResult`: the primary outcome. -/
def AddResult.primary : AddResult → AddResult
  | .ok st c _ => .ok st c []
  | r => r

/-- The handler `post_add_comment` (views.py lines 814-849): 404 when no post
matches, 400 when the stripped text is empty, else the comment is created,
connected to the post, and a `comment_post` notification is recorded when the
post's author differs from the actor. -/
def postAddComment (st : Store) (post_uid : String) (me : UserRec)
    (textRaw : String) (newUid : String) (notifOk : Bool) : AddResult :=
  match findPost st post_uid with
  | none => .notFound
  | some post =>
    let text := pyStrip textRaw
    if text = "" then .emptyText
    else
      let text := pyTruncate text 500
      let c : CommentRec := ⟨newUid, text, me.username, me.uid⟩
      let st' := { st with comments := st.comments ++ [c],
                           postEdges := st.postEdges ++ [(post.uid, c.uid)] }
      let notifs :=
        if post.author_username ≠ me.username then
          (if notifOk then
            [{ to_username := post.author_username, to_uid := post.author_uid,
               from_username := me.username, from_uid := me.uid,
               type := "comment_post", target_uid := c.uid,
               element_type := "comment", seen := false }]
           else [])
        else []
      .ok st' c notifs

/-- The handler `post_add_reply` (views.py lines 852-897): 404 when the post
or the parent comment is missing — the two lookups are independent, nothing
ties the parent comment to the post — 400 when the stripped text is empty,
else the reply is created, attached to the parent comment, and a
`reply_comment` notification is recorded when the parent's author is
non-empty and differs from the actor. -/
def postAddReply (st : Store) (post_uid comment_uid : String) (me : UserRec)
    (textRaw : String) (newUid : String) (notifOk : Bool) : AddResult :=
  match findPost st post_uid with
  | none => .notFound
  | some _ =>
    match findComment st comment_uid with
    | none => .notFound
    | some parent =>
      let text := pyStrip textRaw
      if text = "" then .emptyText
      else
        let text := pyTruncate text 500
        let rep : CommentRec := ⟨newUid, text, me.username, me.uid⟩
        let st' := { st with comments := st.comments ++ [rep],
                             replyEdges := st.replyEdges ++ [(parent.uid, rep.uid)] }
        let notifs :=
          if parent.author_username ≠ "" ∧ parent.author_username ≠ me.username then
            (if notifOk then
              [{ to_username := parent.author_username, to_uid := parent.author_uid,
                 from_username := me.username, from_uid := me.uid,
                 type := "reply_comment", target_uid := rep.uid,
                 element_type := "comment", seen := false }]
             else [])
          else []
        .ok st' rep notifs

/-- A store with two posts: comment "c" hangs under post "P2", and "P1" has
no comments. -/
def twoPostStore : Store :=
  { posts := [⟨"P1", "t1", "a", "ua", [], 2⟩, ⟨"P2", "t2", "b", "ub", [], 1⟩],
    comments := [⟨"c", "x", "b", "ub"⟩],
    postEdges := [("P2", "c")],
    replyEdges := [] }

/-! ### Feed lemmas and claims C1, C2 -/

theorem mem_group1 {s f : List _} {p : Post} :
    p ∈ group1 s f ↔ p ∈ s ∧ p.author_username ∈ f := by
  simp [group1, List.mem_filter]

theorem mem_group2 {u : String} {s f : List _} {p : Post} :
    p ∈ group2 u s f ↔
      p ∈ s ∧ p ∉ group1 s f ∧
        (∃ t ∈ p.hashtags, t.toLower ∈ interestsOf u s) := by
  simp [group2, List.mem_filter, List.any_eq_true]

theorem mem_group3 {u : String} {s f : List _} {p : Post} :
    p ∈ group3 u s f ↔ p ∈ s ∧ p ∉ group1 s f ∧ p ∉ group2 u s f := by
  simp [group3, List.mem_filter]

theorem sortedPosts_nodup {l : List Post} (h : l.Nodup) : (sortedPosts l).Nodup :=
  (List.mergeSort_perm l postDescLe).nodup_iff.mpr h

theorem groups_nodup {u : String} {l f : List _} (h : l.Nodup) :
    (group1 (sortedPosts l) f ++ group2 u (sortedPosts l) f ++
      group3 u (sortedPosts l) f).Nodup := by
  have hs := sortedPosts_nodup h
  refine ((hs.filter _).append (hs.filter _) ?_).append (hs.filter _) ?_
  · intro a ha hb
    exact (mem_group2.mp hb).2.1 ha
  · intro a ha hb
    rcases List.mem_append.mp ha with h1 | h2
    · exact (mem_group3.mp hb).2.1 h1
    · exact (mem_group3.mp hb).2.2 h2

/-- C1: the home feed has no duplicate post, never contains a post authored
by the viewer, and has length at most 20 — for any viewer, following set and
(duplicate-free) post corpus. -/
theorem homeFeed_nodup_noSelf_le20 (username : String) (allPosts : List Post)
    (following : List String) (h : allPosts.Nodup) :
    (homeFeed username allPosts following).Nodup ∧
    (∀ p ∈ homeFeed username allPosts following, p.author_username ≠ username) ∧
    (homeFeed username allPosts following).length ≤ 20 := by
  refine ⟨?_, ?_, ?_⟩
  · exact ((groups_nodup h).filter _).sublist (List.take_sublist _ _)
  · intro p hp
    have hp' : p ∈ homeFeedPre username allPosts following :=
      (List.take_sublist _ _).mem hp
    have := (List.mem_filter.mp hp').2
    simpa using this
  · simp [homeFeed]

/-- Concrete instantiation of `homeFeed_nodup_noSelf_le20`. -/
theorem homeFeed_nodup_noSelf_le20_witness :
    (homeFeed "v" [⟨"p1", "t", "a", "ua", ["x"], 5⟩] ["a"]).Nodup ∧
    (∀ p ∈ homeFeed "v" [⟨"p1", "t", "a", "ua", ["x"], 5⟩] ["a"],
      p.author_username ≠ "v") ∧
    (homeFeed "v" [⟨"p1", "t", "a", "ua", ["x"], 5⟩] ["a"]).length ≤ 20 :=
  homeFeed_nodup_noSelf_le20 "v" _ ["a"] (by decide)

theorem postDescLe_trans : ∀ a b c : Post, postDescLe a b → postDescLe b c → postDescLe a c := by
  intro a b c
  simp only [postDescLe, decide_eq_true_eq]
  omega

theorem postDescLe_total : ∀ a b : Post, postDescLe a b || postDescLe b a := by
  intro a b
  simp only [postDescLe, Bool.or_eq_true, decide_eq_true_eq]
  omega

theorem sortedPosts_pairwise (l : List Post) :
    (sortedPosts l).Pairwise (fun a b => b.created_at ≤ a.created_at) := by
  have := List.sorted_mergeSort postDescLe_trans postDescLe_total l
  exact this.imp (by simp [postDescLe])

/-- In `l1 ++ l2`, if every member of `l1` satisfies `Q` and no member of `l2`
does, an index holding `Q` precedes every index failing `Q`. -/
theorem index_lt_of_append {α : Type} (l1 l2 : List α) (Q : α → Prop)
    (h1 : ∀ x ∈ l1, Q x) (h2 : ∀ x ∈ l2, ¬ Q x)
    (i j : Nat) (hi : i < (l1 ++ l2).length) (hj : j < (l1 ++ l2).length)
    (hQi : Q ((l1 ++ l2)[i])) (hQj : ¬ Q ((l1 ++ l2)[j])) : i < j := by
  have hilt : i < l1.length := by
    by_contra hcon
    have hge : l1.length ≤ i := Nat.le_of_not_lt hcon
    rw [List.getElem_append_right hge] at hQi
    exact h2 _ (List.getElem_mem _) hQi
  have hjge : l1.length ≤ j := by
    by_contra hcon
    have hlt : j < l1.length := Nat.lt_of_not_le hcon
    rw [List.getElem_append_left hlt] at hQj
    exact hQj (h1 _ (List.getElem_mem _))
  omega

/-- C2 (amended): if viewer V follows author A, post P by A is in the corpus
and V ≠ A, then P lands in the "following" group of the composition; in the
pre-truncation feed P appears ahead of every post whose author V does not
follow; and each of the three groups is in creation-timestamp-descending
order.  (The final truncation to 20 can drop P; see the counterexample.) -/
theorem feed_following_ahead (username A : String) (P : Post)
    (allPosts : List Post) (following : List String)
    (hf : A ∈ following) (hA : P.author_username = A) (hmem : P ∈ allPosts)
    (hne : A ≠ username) :
    P ∈ group1 (sortedPosts allPosts) following ∧
    P ∈ homeFeedPre username allPosts following ∧
    (∀ (i j : Nat) (hi : i < (homeFeedPre username allPosts following).length)
        (hj : j < (homeFeedPre username allPosts following).length),
      (homeFeedPre username allPosts following)[i] = P →
      (homeFeedPre username allPosts following)[j].author_username ∉ following →
      i < j) ∧
    (group1 (sortedPosts allPosts) following).Pairwise
      (fun a b => b.created_at ≤ a.created_at) ∧
    (group2 username (sortedPosts allPosts) following).Pairwise
      (fun a b => b.created_at ≤ a.created_at) ∧
    (group3 username (sortedPosts allPosts) following).Pairwise
      (fun a b => b.created_at ≤ a.created_at) := by
  have hPs : P ∈ sortedPosts allPosts :=
    (List.mergeSort_perm allPosts postDescLe).mem_iff.mpr hmem
  have hP1 : P ∈ group1 (sortedPosts allPosts) following :=
    mem_group1.mpr ⟨hPs, by rw [hA]; exact hf⟩
  have hpre : homeFeedPre username allPosts following =
      (group1 (sortedPosts allPosts) following).filter
        (fun p => decide (p.author_username ≠ username)) ++
      ((group2 username (sortedPosts allPosts) following).filter
        (fun p => decide (p.author_username ≠ username)) ++
       (group3 username (sortedPosts allPosts) following).filter
        (fun p => decide (p.author_username ≠ username))) := by
    simp [homeFeedPre, List.filter_append, List.append_assoc]
  have hPl1 : P ∈ (group1 (sortedPosts allPosts) following).filter
      (fun p => decide (p.author_username ≠ username)) := by
    refine List.mem_filter.mpr ⟨hP1, ?_⟩
    simp [hA, hne]
  have hl1 : ∀ x ∈ (group1 (sortedPosts allPosts) following).filter
      (fun p => decide (p.author_username ≠ username)), x.author_username ∈ following := by
    intro x hx
    exact (mem_group1.mp (List.mem_filter.mp hx).1).2
  have hl2 : ∀ x ∈ ((group2 username (sortedPosts allPosts) following).filter
        (fun p => decide (p.author_username ≠ username)) ++
       (group3 username (sortedPosts allPosts) following).filter
        (fun p => decide (p.author_username ≠ username))),
      x.author_username ∉ following := by
    intro x hx hmemF
    rcases List.mem_append.mp hx with h2 | h3
    · have h2' := mem_group2.mp (List.mem_filter.mp h2).1
      exact h2'.2.1 (mem_group1.mpr ⟨h2'.1, hmemF⟩)
    · have h3' := mem_group3.mp (List.mem_filter.mp h3).1
      exact h3'.2.1 (mem_group1.mpr ⟨h3'.1, hmemF⟩)
  have hsorted := sortedPosts_pairwise allPosts
  refine ⟨hP1, ?_, ?_, ?_, ?_, ?_⟩
  · rw [hpre]
    exact List.mem_append_left _ hPl1
  · intro i j hi hj hgi hgj
    rw [List.getElem_of_eq hpre hi] at hgi
    rw [List.getElem_of_eq hpre hj] at hgj
    refine index_lt_of_append _ _ (fun x : Post => x.author_username ∈ following)
      hl1 hl2 i j (by rw [← hpre]; exact hi) (by rw [← hpre]; exact hj) ?_ hgj
    rw [hgi]
    show P.author_username ∈ following
    rw [hA]
    exact hf
  · exact hsorted.sublist (List.filter_sublist _)
  · exact hsorted.sublist (List.filter_sublist _)
  · exact hsorted.sublist (List.filter_sublist _)

/-- Concrete instantiation of `feed_following_ahead`. -/
theorem feed_following_ahead_witness :
    (⟨"p1", "t", "a", "ua", [], 5⟩ : Post) ∈
      group1 (sortedPosts [⟨"p1", "t", "a", "ua", [], 5⟩]) ["a"] ∧
    (⟨"p1", "t", "a", "ua", [], 5⟩ : Post) ∈
      homeFeedPre "v" [⟨"p1", "t", "a", "ua", [], 5⟩] ["a"] ∧
    (∀ (i j : Nat)
        (hi : i < (homeFeedPre "v" [⟨"p1", "t", "a", "ua", [], 5⟩] ["a"]).length)
        (hj : j < (homeFeedPre "v" [⟨"p1", "t", "a", "ua", [], 5⟩] ["a"]).length),
      (homeFeedPre "v" [⟨"p1", "t", "a", "ua", [], 5⟩] ["a"])[i] =
        (⟨"p1", "t", "a", "ua", [], 5⟩ : Post) →
      (homeFeedPre "v" [⟨"p1", "t", "a", "ua", [], 5⟩] ["a"])[j].author_username ∉ ["a"] →
      i < j) ∧
    (group1 (sortedPosts [⟨"p1", "t", "a", "ua", [], 5⟩]) ["a"]).Pairwise
      (fun a b => b.created_at ≤ a.created_at) ∧
    (group2 "v" (sortedPosts [⟨"p1", "t", "a", "ua", [], 5⟩]) ["a"]).Pairwise
      (fun a b => b.created_at ≤ a.created_at) ∧
    (group3 "v" (sortedPosts [⟨"p1", "t", "a", "ua", [], 5⟩]) ["a"]).Pairwise
      (fun a b => b.created_at ≤ a.created_at) :=
  feed_following_ahead "v" "a" ⟨"p1", "t", "a", "ua", [], 5⟩
    [⟨"p1", "t", "a", "ua", [], 5⟩] ["a"] (by decide) rfl (by decide) (by decide)

/-- C2 as stated fails on the code: with 21 posts by a followed author, the
oldest post satisfies every premise of the claim yet does not appear at all in
the feed returned by `home`, because of the truncation to 20. -/
theorem feed_following_ahead_cx :
    "a" ∈ ["a"] ∧
    (⟨"20", "t", "a", "ua", [], 1⟩ : Post).author_username = "a" ∧
    (⟨"20", "t", "a", "ua", [], 1⟩ : Post) ∈ manyPosts ∧
    ("a" : String) ≠ "v" ∧
    (⟨"20", "t", "a", "ua", [], 1⟩ : Post) ∉ homeFeed "v" manyPosts ["a"] := by
  have hsorted : sortedPosts manyPosts = manyPosts :=
    List.mergeSort_of_sorted (by decide)
  refine ⟨by decide, rfl, by decide, by decide, ?_⟩
  simp only [homeFeed, homeFeedPre, hsorted]
  decide

/-! ### Resolver lemmas and claim C3 -/

theorem resolveLoop_step_eq (st : Store) (fuel : Nat) (c : String) :
    resolveLoop st fuel c =
      match onPostFirst st c with
      | some p => some (some p)
      | none =>
        match onCommentFirst st c with
        | none => some none
        | some parent =>
          match fuel with
          | 0 => none
          | fuel' + 1 => resolveLoop st fuel' parent := by
  rw [resolveLoop.eq_def]

theorem resolveLoop_mono (st : Store) :
    ∀ (n : Nat) (c : String) (r : Option String), resolveLoop st n c = some r →
      ∀ m, n ≤ m → resolveLoop st m c = some r := by
  intro n
  induction n with
  | zero =>
    intro c r h m _
    rw [resolveLoop_step_eq] at h
    rw [resolveLoop_step_eq]
    cases hp : onPostFirst st c with
    | some p => simp [hp] at h ⊢; exact h
    | none =>
      cases hc : onCommentFirst st c with
      | none => simp [hp, hc] at h ⊢; exact h
      | some parent => simp [hp, hc] at h
  | succ n ih =>
    intro c r h m hm
    rw [resolveLoop_step_eq] at h
    rw [resolveLoop_step_eq]
    cases hp : onPostFirst st c with
    | some p => simp [hp] at h ⊢; exact h
    | none =>
      cases hc : onCommentFirst st c with
      | none => simp [hp, hc] at h ⊢; exact h
      | some parent =>
        simp only [hp, hc] at h ⊢
        cases m with
        | zero => omega
        | succ m' => exact ih parent r h m' (by omega)

theorem chainResolves_resolveLoop {st : Store} {c : String} {r : Option String}
    (h : ChainResolves st c r) : ∃ n, resolveLoop st n c = some r := by
  induction h with
  | direct c p hp => exact ⟨0, by rw [resolveLoop_step_eq]; simp [hp]⟩
  | dead c hp hc => exact ⟨0, by rw [resolveLoop_step_eq]; simp [hp, hc]⟩
  | step c c' r hp hc _ ih =>
    obtain ⟨n, hn⟩ := ih
    exact ⟨n + 1, by rw [resolveLoop_step_eq]; simp only [hp, hc]; exact hn⟩

theorem resolveLoop_chainResolves (st : Store) :
    ∀ (n : Nat) (c : String) (r : Option String),
      resolveLoop st n c = some r → ChainResolves st c r := by
  intro n
  induction n with
  | zero =>
    intro c r h
    rw [resolveLoop_step_eq] at h
    cases hp : onPostFirst st c with
    | some p =>
      simp [hp] at h
      exact h ▸ ChainResolves.direct c p hp
    | none =>
      cases hc : onCommentFirst st c with
      | none =>
        simp [hp, hc] at h
        exact h ▸ ChainResolves.dead c hp hc
      | some parent => simp [hp, hc] at h
  | succ n ih =>
    intro c r h
    rw [resolveLoop_step_eq] at h
    cases hp : onPostFirst st c with
    | some p =>
      simp [hp] at h
      exact h ▸ ChainResolves.direct c p hp
    | none =>
      cases hc : onCommentFirst st c with
      | none =>
        simp [hp, hc] at h
        exact h ▸ ChainResolves.dead c hp hc
      | some parent =>
        simp only [hp, hc] at h
        exact ChainResolves.step c parent r hp hc (ih parent r h)

/-- C3: on a finite acyclic ancestor chain that reaches a post, the resolver
terminates (is stable for all sufficiently large fuel) with that post's uid;
a reply three levels deep resolves to the same post uid as the top-level
comment it descends from; and a `None` result on an existing comment occurs
only when the chain ends without reaching a post. -/
theorem resolvePostUid_correct :
    (∀ (st : Store) (c p : String), commentExists st c →
      ChainResolves st c (some p) →
      ∃ n, ∀ m, n ≤ m → resolvePostUidForComment st m c = some (some p)) ∧
    (∀ (st : Store) (r c2 c1 t p : String),
      commentExists st r → commentExists st t →
      onPostFirst st r = none → onCommentFirst st r = some c2 →
      onPostFirst st c2 = none → onCommentFirst st c2 = some c1 →
      onPostFirst st c1 = none → onCommentFirst st c1 = some t →
      onPostFirst st t = some p →
      ∀ m, 3 ≤ m → resolvePostUidForComment st m r = some (some p) ∧
        resolvePostUidForComment st m t = some (some p)) ∧
    (∀ (st : Store) (c : String) (fuel : Nat), commentExists st c →
      resolvePostUidForComment st fuel c = some none →
      ChainResolves st c none) := by
  refine ⟨?_, ?_, ?_⟩
  · intro st c p hex hch
    obtain ⟨n, hn⟩ := chainResolves_resolveLoop hch
    refine ⟨n, fun m hm => ?_⟩
    simp only [resolvePostUidForComment, hex, if_true]
    exact resolveLoop_mono st n c _ hn m hm
  · intro st r c2 c1 t p hexr hext hr hrc h2 h2c h1 h1c ht m hm
    have s0 : resolveLoop st 0 t = some (some p) := by
      rw [resolveLoop_step_eq]
      simp [ht]
    have s1 : resolveLoop st 1 c1 = some (some p) := by
      rw [resolveLoop_step_eq]
      simp only [h1, h1c]
      exact s0
    have s2 : resolveLoop st 2 c2 = some (some p) := by
      rw [resolveLoop_step_eq]
      simp only [h2, h2c]
      exact s1
    have hbase : resolveLoop st 3 r = some (some p) := by
      rw [resolveLoop_step_eq]
      simp only [hr, hrc]
      exact s2
    constructor
    · simp only [resolvePostUidForComment, hexr, if_true]
      exact resolveLoop_mono st 3 r _ hbase m hm
    · simp only [resolvePostUidForComment, hext, if_true]
      exact resolveLoop_mono st 0 t _ s0 m (by omega)
  · intro st c fuel hex h
    simp only [resolvePostUidForComment, hex, if_true] at h
    exact resolveLoop_chainResolves st fuel c none h

/-- Concrete instantiation of `resolvePostUid_correct`. -/
theorem resolvePostUid_correct_witness :
    (∃ n, ∀ m, n ≤ m →
      resolvePostUidForComment resolveStore m "r3" = some (some "P")) ∧
    (∀ m, 3 ≤ m → resolvePostUidForComment resolveStore m "r3" = some (some "P") ∧
      resolvePostUidForComment resolveStore m "t0" = some (some "P")) :=
  ⟨resolvePostUid_correct.1 resolveStore "r3" "P" (by decide)
      (ChainResolves.step _ "c2" _ (by decide) (by decide)
        (ChainResolves.step _ "c1" _ (by decide) (by decide)
          (ChainResolves.step _ "t0" _ (by decide) (by decide)
            (ChainResolves.direct _ "P" (by decide))))),
    fun m hm => resolvePostUid_correct.2.1 resolveStore "r3" "c2" "c1" "t0" "P"
      (by decide) (by decide) (by decide) (by decide) (by decide) (by decide)
      (by decide) (by decide) (by decide) m hm⟩

/-! ### Messaging lemmas and claim C4 -/

theorem msgAscLe_trans : ∀ a b c : Message, msgAscLe a b → msgAscLe b c → msgAscLe a c := by
  intro a b c
  simp only [msgAscLe, decide_eq_true_eq]
  omega

theorem msgAscLe_total : ∀ a b : Message, msgAscLe a b || msgAscLe b a := by
  intro a b
  simp only [msgAscLe, Bool.or_eq_true, decide_eq_true_eq]
  omega

theorem filter_append_perm_or {α : Type} (p q : α → Bool) (l : List α)
    (hdisj : ∀ x, ¬(p x = true ∧ q x = true)) :
    (l.filter p ++ l.filter q).Perm (l.filter (fun x => p x || q x)) := by
  induction l with
  | nil => simp
  | cons x xs ih =>
    cases hp : p x <;> cases hq : q x
    · simpa [List.filter_cons, hp, hq] using ih
    · simp only [List.filter_cons, hp, hq, Bool.false_or, if_true, if_false]
      exact List.perm_middle.trans (ih.cons x)
    · simp only [List.filter_cons, hp, hq, Bool.true_or, if_true, if_false]
      exact ih.cons x
    · exact absurd ⟨hp, hq⟩ (hdisj x)

theorem mem_threadMsgs {msgs : List Message} {a b : String} {m : Message} :
    m ∈ threadMsgs msgs a b ↔
      m ∈ msgs ∧ (msgDir a b m || msgDir b a m) = true := by
  rw [threadMsgs, (List.mergeSort_perm _ msgAscLe).mem_iff]
  constructor
  · intro h
    rcases List.mem_append.mp h with h' | h' <;>
      exact ⟨(List.mem_filter.mp h').1, by simp [(List.mem_filter.mp h').2]⟩
  · rintro ⟨hm, hor⟩
    rcases Bool.or_eq_true_iff.mp hor with h1 | h1
    · exact List.mem_append_left _ (List.mem_filter.mpr ⟨hm, h1⟩)
    · exact List.mem_append_right _ (List.mem_filter.mpr ⟨hm, h1⟩)

/-- C4 (amended to distinct users): for a ≠ b, the fetched thread is sorted
ascending by creation time and is exactly (a permutation of) the messages of
the two directions; the store update sets `seen := true` on precisely the
fetched messages addressed to the caller, leaving every other message
unchanged; and a second identical fetch changes no further state. -/
theorem chatMessages_spec (msgs : List Message) (a b : String) (hab : a ≠ b) :
    (chatMessages msgs a b).1.Pairwise
      (fun m1 m2 => m1.created_at ≤ m2.created_at) ∧
    (chatMessages msgs a b).1.Perm
      (msgs.filter (fun m => msgDir a b m || msgDir b a m)) ∧
    (chatMessages msgs a b).2 = msgs.map (fun m =>
      if m ∈ (chatMessages msgs a b).1 ∧ m.receiver_username = a then
        { m with seen := true } else m) ∧
    (chatMessages (chatMessages msgs a b).2 a b).2 = (chatMessages msgs a b).2 := by
  refine ⟨?_, ?_, ?_, ?_⟩
  · have := List.sorted_mergeSort msgAscLe_trans msgAscLe_total
      (msgs.filter (msgDir a b) ++ msgs.filter (msgDir b a))
    exact this.imp (by simp [msgAscLe])
  · refine (List.mergeSort_perm _ msgAscLe).trans ?_
    refine filter_append_perm_or _ _ _ ?_
    rintro m ⟨h1, h2⟩
    simp only [msgDir, Bool.and_eq_true, beq_iff_eq] at h1 h2
    exact hab (h1.1.symm.trans h2.1)
  · show markThreadSeen msgs a b = _
    rw [markThreadSeen]
    apply List.map_congr_left
    intro m hm
    by_cases hcond : ((msgDir a b m || msgDir b a m) && m.receiver_username == a) = true
    · rw [if_pos hcond, if_pos]
      have h' := Bool.and_eq_true_iff.mp hcond
      exact ⟨mem_threadMsgs.mpr ⟨hm, h'.1⟩, by simpa using h'.2⟩
    · rw [if_neg hcond, if_neg]
      intro ⟨hmem, hrec⟩
      exact hcond (by
        simp only [Bool.and_eq_true, beq_iff_eq]
        exact ⟨(mem_threadMsgs.mp hmem).2, hrec⟩)
  · show markThreadSeen (markThreadSeen msgs a b) a b = markThreadSeen msgs a b
    simp only [markThreadSeen, List.map_map]
    apply List.map_congr_left
    intro m _
    simp only [Function.comp_apply]
    by_cases hcond : ((msgDir a b m || msgDir b a m) && m.receiver_username == a) = true
    · rw [if_pos hcond, if_pos]
      exact hcond
    · rw [if_neg hcond, if_neg hcond]

/-- Concrete instantiation of `chatMessages_spec`. -/
theorem chatMessages_spec_witness :
    (chatMessages [⟨"m1", "a", "ua", "b", "ub", some "x", none, false, 2⟩,
        ⟨"m2", "b", "ub", "a", "ua", some "y", none, false, 1⟩] "a" "b").1.Pairwise
      (fun m1 m2 => m1.created_at ≤ m2.created_at) ∧
    (chatMessages [⟨"m1", "a", "ua", "b", "ub", some "x", none, false, 2⟩,
        ⟨"m2", "b", "ub", "a", "ua", some "y", none, false, 1⟩] "a" "b").1.Perm
      ([⟨"m1", "a", "ua", "b", "ub", some "x", none, false, 2⟩,
        ⟨"m2", "b", "ub", "a", "ua", some "y", none, false, 1⟩].filter
        (fun m => msgDir "a" "b" m || msgDir "b" "a" m)) ∧
    (chatMessages [⟨"m1", "a", "ua", "b", "ub", some "x", none, false, 2⟩,
        ⟨"m2", "b", "ub", "a", "ua", some "y", none, false, 1⟩] "a" "b").2 =
      [⟨"m1", "a", "ua", "b", "ub", some "x", none, false, 2⟩,
        ⟨"m2", "b", "ub", "a", "ua", some "y", none, false, 1⟩].map (fun m =>
        if m ∈ (chatMessages [⟨"m1", "a", "ua", "b", "ub", some "x", none, false, 2⟩,
            ⟨"m2", "b", "ub", "a", "ua", some "y", none, false, 1⟩] "a" "b").1 ∧
            m.receiver_username = "a" then
          { m with seen := true } else m) ∧
    (chatMessages (chatMessages [⟨"m1", "a", "ua", "b", "ub", some "x", none, false, 2⟩,
        ⟨"m2", "b", "ub", "a", "ua", some "y", none, false, 1⟩] "a" "b").2 "a" "b").2 =
      (chatMessages [⟨"m1", "a", "ua", "b", "ub", some "x", none, false, 2⟩,
        ⟨"m2", "b", "ub", "a", "ua", some "y", none, false, 1⟩] "a" "b").2 :=
  chatMessages_spec _ "a" "b" (by decide)

/-- C4 as stated fails when the two users coincide: the thread "a" fetches
with themself returns the lone self-message twice, while the union of the two
(identical) direction sets has a single element. -/
theorem chatMessages_spec_cx :
    (chatMessages [selfMsg] "a" "a").1 = [selfMsg, selfMsg] ∧
    [selfMsg].filter (fun m => msgDir "a" "a" m || msgDir "a" "a" m) = [selfMsg] := by
  constructor
  · show threadMsgs [selfMsg] "a" "a" = _
    rw [threadMsgs]
    have h : ([selfMsg].filter (msgDir "a" "a") ++ [selfMsg].filter (msgDir "a" "a")) =
        [selfMsg, selfMsg] := by decide
    rw [h]
    exact List.mergeSort_of_sorted (by decide)
  · decide

/-! ### Like-toggle lemmas and claim C5 -/

theorem any_beq_iff (l : List String) (u : String) :
    (l.any (fun x => x == u) = true) ↔ u ∈ l := by
  simp [List.any_eq_true]

theorem length_filter_ne {l : List String} {u : String} (hn : l.Nodup) (hm : u ∈ l) :
    (l.filter (fun x => !(x == u))).length + 1 = l.length := by
  induction l with
  | nil => cases hm
  | cons x xs ih =>
    rcases List.nodup_cons.mp hn with ⟨hx, hxs⟩
    by_cases hxu : x = u
    · subst hxu
      have hself : xs.filter (fun y => !(y == x)) = xs :=
        List.filter_eq_self.mpr (fun a ha => by
          simp [ne_of_mem_of_not_mem ha hx])
      simp [List.filter_cons, hself]
    · have hm' : u ∈ xs := by
        rcases List.mem_cons.mp hm with h | h
        · exact absurd h.symm hxu
        · exact h
      have hstep := ih hxs hm'
      have hbeq : (x == u) = false := by simp [hxu]
      simp only [List.filter_cons, hbeq, Bool.not_false, if_true, List.length_cons]
      omega

theorem postLikeToggle_double_aux (target : LikeTarget) (user : UserRec)
    (ok1 ok2 : Bool) (h : target.likedBy.Nodup) :
    (postLikeToggle (postLikeToggle target user ok1).2.1 user ok2).2.1.likedBy.length
      = target.likedBy.length ∧
    ((user.username ∈
        (postLikeToggle (postLikeToggle target user ok1).2.1 user ok2).2.1.likedBy)
      ↔ user.username ∈ target.likedBy) ∧
    (postLikeToggle target user ok1).1.2 =
      (postLikeToggle target user ok1).2.1.likedBy.length ∧
    (postLikeToggle (postLikeToggle target user ok1).2.1 user ok2).1.2 =
      (postLikeToggle (postLikeToggle target user ok1).2.1 user ok2).2.1.likedBy.length := by
  have hcount : ∀ (t : LikeTarget) (ok : Bool),
      (postLikeToggle t user ok).1.2 = (postLikeToggle t user ok).2.1.likedBy.length := by
    intro t ok
    simp only [postLikeToggle]
    split
    · rfl
    · rfl
  refine ⟨?_, ?_, hcount target ok1, hcount _ ok2⟩ <;>
    by_cases hm : user.username ∈ target.likedBy
  · have ha1 : target.likedBy.any (fun x => x == user.username) = true :=
      (any_beq_iff _ _).mpr hm
    have ha2 : (target.likedBy.filter (fun x => !(x == user.username))).any
        (fun x => x == user.username) = false := by
      simp [List.any_eq_false, List.mem_filter]
    have hlen := length_filter_ne h hm
    simp [postLikeToggle, ha1, ha2]
    omega
  · have ha1 : target.likedBy.any (fun x => x == user.username) = false := by
      simp only [List.any_eq_false]
      intro x hx
      simp [ne_of_mem_of_not_mem hx hm]
    have ha2 : (target.likedBy ++ [user.username]).any (fun x => x == user.username) = true := by
      simp
    have hfilter : (target.likedBy ++ [user.username]).filter
        (fun x => !(x == user.username)) = target.likedBy := by
      rw [List.filter_append]
      have h1 : target.likedBy.filter (fun x => !(x == user.username)) = target.likedBy :=
        List.filter_eq_self.mpr (fun a ha => by simp [ne_of_mem_of_not_mem ha hm])
      simp [h1]
    simp [postLikeToggle, ha1, ha2, hfilter]
  · have ha1 : target.likedBy.any (fun x => x == user.username) = true :=
      (any_beq_iff _ _).mpr hm
    have ha2 : (target.likedBy.filter (fun x => !(x == user.username))).any
        (fun x => x == user.username) = false := by
      simp [List.any_eq_false, List.mem_filter]
    simp [postLikeToggle, ha1, ha2, hm]
  · have ha1 : target.likedBy.any (fun x => x == user.username) = false := by
      simp only [List.any_eq_false]
      intro x hx
      simp [ne_of_mem_of_not_mem hx hm]
    have ha2 : (target.likedBy ++ [user.username]).any (fun x => x == user.username) = true := by
      simp
    have hfilter : (target.likedBy ++ [user.username]).filter
        (fun x => !(x == user.username)) = target.likedBy := by
      rw [List.filter_append]
      have h1 : target.likedBy.filter (fun x => !(x == user.username)) = target.likedBy :=
        List.filter_eq_self.mpr (fun a ha => by simp [ne_of_mem_of_not_mem ha hm])
      simp [h1]
    simp [postLikeToggle, ha1, ha2, hfilter, hm]

theorem commentLikeToggle_double_aux (target : LikeTarget) (user : UserRec)
    (ok1 ok2 : Bool) (h : target.likedBy.Nodup) :
    (commentLikeToggle (commentLikeToggle target user ok1).2.1 user ok2).2.1.likedBy.length
      = target.likedBy.length ∧
    ((user.username ∈
        (commentLikeToggle (commentLikeToggle target user ok1).2.1 user ok2).2.1.likedBy)
      ↔ user.username ∈ target.likedBy) ∧
    (commentLikeToggle target user ok1).1.2 =
      (commentLikeToggle target user ok1).2.1.likedBy.length ∧
    (commentLikeToggle (commentLikeToggle target user ok1).2.1 user ok2).1.2 =
      (commentLikeToggle (commentLikeToggle target user ok1).2.1 user ok2).2.1.likedBy.length := by
  have hcount : ∀ (t : LikeTarget) (ok : Bool),
      (commentLikeToggle t user ok).1.2 = (commentLikeToggle t user ok).2.1.likedBy.length := by
    intro t ok
    simp only [commentLikeToggle]
    split
    · rfl
    · rfl
  refine ⟨?_, ?_, hcount target ok1, hcount _ ok2⟩ <;>
    by_cases hm : user.username ∈ target.likedBy
  · have ha1 : target.likedBy.any (fun x => x == user.username) = true :=
      (any_beq_iff _ _).mpr hm
    have ha2 : (target.likedBy.filter (fun x => !(x == user.username))).any
        (fun x => x == user.username) = false := by
      simp [List.any_eq_false, List.mem_filter]
    have hlen := length_filter_ne h hm
    simp [commentLikeToggle, ha1, ha2]
    omega
  · have ha1 : target.likedBy.any (fun x => x == user.username) = false := by
      simp only [List.any_eq_false]
      intro x hx
      simp [ne_of_mem_of_not_mem hx hm]
    have ha2 : (target.likedBy ++ [user.username]).any (fun x => x == user.username) = true := by
      simp
    have hfilter : (target.likedBy ++ [user.username]).filter
        (fun x => !(x == user.username)) = target.likedBy := by
      rw [List.filter_append]
      have h1 : target.likedBy.filter (fun x => !(x == user.username)) = target.likedBy :=
        List.filter_eq_self.mpr (fun a ha => by simp [ne_of_mem_of_not_mem ha hm])
      simp [h1]
    simp [commentLikeToggle, ha1, ha2, hfilter]
  · have ha1 : target.likedBy.any (fun x => x == user.username) = true :=
      (any_beq_iff _ _).mpr hm
    have ha2 : (target.likedBy.filter (fun x => !(x == user.username))).any
        (fun x => x == user.username) = false := by
      simp [List.any_eq_false, List.mem_filter]
    simp [commentLikeToggle, ha1, ha2, hm]
  · have ha1 : target.likedBy.any (fun x => x == user.username) = false := by
      simp only [List.any_eq_false]
      intro x hx
      simp [ne_of_mem_of_not_mem hx hm]
    have ha2 : (target.likedBy ++ [user.username]).any (fun x => x == user.username) = true := by
      simp
    have hfilter : (target.likedBy ++ [user.username]).filter
        (fun x => !(x == user.username)) = target.likedBy := by
      rw [List.filter_append]
      have h1 : target.likedBy.filter (fun x => !(x == user.username)) = target.likedBy :=
        List.filter_eq_self.mpr (fun a ha => by simp [ne_of_mem_of_not_mem ha hm])
      simp [h1]
    simp [commentLikeToggle, ha1, ha2, hfilter, hm]

/-- C5: toggling a like twice by the same actor on the same (post or comment)
target restores the original liked state and the original like count, and each
call returns the liked-by cardinality as it stands after that call's toggle —
for any duplicate-free liked-by edge set and any notification-write outcomes. -/
theorem likeToggle_double (target : LikeTarget) (user : UserRec)
    (ok1 ok2 : Bool) (h : target.likedBy.Nodup) :
    ((postLikeToggle (postLikeToggle target user ok1).2.1 user ok2).2.1.likedBy.length
        = target.likedBy.length ∧
      ((user.username ∈
          (postLikeToggle (postLikeToggle target user ok1).2.1 user ok2).2.1.likedBy)
        ↔ user.username ∈ target.likedBy) ∧
      (postLikeToggle target user ok1).1.2 =
        (postLikeToggle target user ok1).2.1.likedBy.length ∧
      (postLikeToggle (postLikeToggle target user ok1).2.1 user ok2).1.2 =
        (postLikeToggle (postLikeToggle target user ok1).2.1 user ok2).2.1.likedBy.length) ∧
    ((commentLikeToggle (commentLikeToggle target user ok1).2.1 user ok2).2.1.likedBy.length
        = target.likedBy.length ∧
      ((user.username ∈
          (commentLikeToggle (commentLikeToggle target user ok1).2.1 user ok2).2.1.likedBy)
        ↔ user.username ∈ target.likedBy) ∧
      (commentLikeToggle target user ok1).1.2 =
        (commentLikeToggle target user ok1).2.1.likedBy.length ∧
      (commentLikeToggle (commentLikeToggle target user ok1).2.1 user ok2).1.2 =
        (commentLikeToggle (commentLikeToggle target user ok1).2.1 user ok2).2.1.likedBy.length) :=
  ⟨postLikeToggle_double_aux target user ok1 ok2 h,
   commentLikeToggle_double_aux target user ok1 ok2 h⟩

/-- Concrete instantiation of `likeToggle_double`. -/
theorem likeToggle_double_witness :
    ((postLikeToggle (postLikeToggle ⟨"p", "b", "ub", ["w"]⟩ ⟨"u", "uu"⟩ true).2.1
        ⟨"u", "uu"⟩ true).2.1.likedBy.length
        = (⟨"p", "b", "ub", ["w"]⟩ : LikeTarget).likedBy.length ∧
      (("u" ∈ (postLikeToggle (postLikeToggle ⟨"p", "b", "ub", ["w"]⟩ ⟨"u", "uu"⟩ true).2.1
          ⟨"u", "uu"⟩ true).2.1.likedBy)
        ↔ "u" ∈ (⟨"p", "b", "ub", ["w"]⟩ : LikeTarget).likedBy) ∧
      (postLikeToggle ⟨"p", "b", "ub", ["w"]⟩ ⟨"u", "uu"⟩ true).1.2 =
        (postLikeToggle ⟨"p", "b", "ub", ["w"]⟩ ⟨"u", "uu"⟩ true).2.1.likedBy.length ∧
      (postLikeToggle (postLikeToggle ⟨"p", "b", "ub", ["w"]⟩ ⟨"u", "uu"⟩ true).2.1
        ⟨"u", "uu"⟩ true).1.2 =
        (postLikeToggle (postLikeToggle ⟨"p", "b", "ub", ["w"]⟩ ⟨"u", "uu"⟩ true).2.1
          ⟨"u", "uu"⟩ true).2.1.likedBy.length) ∧
    ((commentLikeToggle (commentLikeToggle ⟨"p", "b", "ub", ["w"]⟩ ⟨"u", "uu"⟩ true).2.1
        ⟨"u", "uu"⟩ true).2.1.likedBy.length
        = (⟨"p", "b", "ub", ["w"]⟩ : LikeTarget).likedBy.length ∧
      (("u" ∈ (commentLikeToggle (commentLikeToggle ⟨"p", "b", "ub", ["w"]⟩ ⟨"u", "uu"⟩ true).2.1
          ⟨"u", "uu"⟩ true).2.1.likedBy)
        ↔ "u" ∈ (⟨"p", "b", "ub", ["w"]⟩ : LikeTarget).likedBy) ∧
      (commentLikeToggle ⟨"p", "b", "ub", ["w"]⟩ ⟨"u", "uu"⟩ true).1.2 =
        (commentLikeToggle ⟨"p", "b", "ub", ["w"]⟩ ⟨"u", "uu"⟩ true).2.1.likedBy.length ∧
      (commentLikeToggle (commentLikeToggle ⟨"p", "b", "ub", ["w"]⟩ ⟨"u", "uu"⟩ true).2.1
        ⟨"u", "uu"⟩ true).1.2 =
        (commentLikeToggle (commentLikeToggle ⟨"p", "b", "ub", ["w"]⟩ ⟨"u", "uu"⟩ true).2.1
          ⟨"u", "uu"⟩ true).2.1.likedBy.length) :=
  likeToggle_double ⟨"p", "b", "ub", ["w"]⟩ ⟨"u", "uu"⟩ true true (by decide)

/-! ### String lemmas and claim C6 -/

theorem string_length_data (s : String) : s.length = s.data.length := by
  cases s
  rfl

theorem strTake_length (s : String) (n : Nat) : (strTake s n).length = min n s.length := by
  rw [strTake, String.length_mk, List.length_take, string_length_data]

theorem pyTruncate_length (s : String) (n : Nat) :
    (pyTruncate s n).length = min n s.length := by
  rw [pyTruncate]
  by_cases h : n < s.length
  · rw [if_pos h, strTake_length]
  · rw [if_neg h]
    omega

/-- C6: `chat_send` rejects with the 400 validation error exactly when the
trimmed text and the image are both absent; only an image is enough to
succeed; and text whose trimmed form exceeds 2000 characters is silently cut
to exactly 2000 characters. -/
theorem chatSend_validation (me target : UserRec)
    (textRaw imageUrl newUid : String) (now : Nat) :
    (chatSend me target textRaw imageUrl newUid now = none ↔
      pyStrip textRaw = "" ∧ imageUrl = "") ∧
    (pyStrip textRaw = "" → imageUrl ≠ "" →
      ∃ m, chatSend me target textRaw imageUrl newUid now = some m) ∧
    (2000 < (pyStrip textRaw).length →
      ∃ m, chatSend me target textRaw imageUrl newUid now = some m ∧
        m.text = some (strTake (pyStrip textRaw) 2000) ∧
        (strTake (pyStrip textRaw) 2000).length = 2000) := by
  have hne : 2000 < (pyStrip textRaw).length →
      pyTruncate (pyStrip textRaw) 2000 ≠ "" := by
    intro hlen hcontra
    have := congrArg String.length hcontra
    rw [pyTruncate_length, String.length_empty] at this
    omega
  have htr : pyTruncate (pyStrip textRaw) 2000 = "" ↔ pyStrip textRaw = "" := by
    by_cases hlen : 2000 < (pyStrip textRaw).length
    · constructor
      · intro h
        exact absurd h (hne hlen)
      · intro h
        rw [h] at hlen
        simp at hlen
    · rw [pyTruncate, if_neg hlen]
  refine ⟨?_, ?_, ?_⟩
  · simp only [chatSend]
    by_cases hcond : (pyTruncate (pyStrip textRaw) 2000 = "" ∧ imageUrl = "")
    · rw [if_pos hcond]
      exact ⟨fun _ => ⟨htr.mp hcond.1, hcond.2⟩, fun _ => rfl⟩
    · rw [if_neg hcond]
      constructor
      · intro h
        cases h
      · intro ⟨h1, h2⟩
        exact absurd ⟨htr.mpr h1, h2⟩ hcond
  · intro htrim himg
    simp only [chatSend]
    rw [if_neg]
    · exact ⟨_, rfl⟩
    · intro ⟨_, h2⟩
      exact himg h2
  · intro hlen
    simp only [chatSend]
    have htrunc : pyTruncate (pyStrip textRaw) 2000 = strTake (pyStrip textRaw) 2000 := by
      rw [pyTruncate, if_pos hlen]
    rw [if_neg (fun h => hne hlen h.1)]
    refine ⟨_, rfl, ?_, ?_⟩
    · show (if pyTruncate (pyStrip textRaw) 2000 = "" then none
        else some (pyTruncate (pyStrip textRaw) 2000)) = _
      rw [if_neg (hne hlen), htrunc]
    · rw [strTake_length]
      omega

/-- Concrete instantiation of `chatSend_validation`. -/
theorem chatSend_validation_witness :
    (chatSend ⟨"a", "ua"⟩ ⟨"b", "ub"⟩ "" "http_img" "m1" 7 = none ↔
      pyStrip "" = "" ∧ ("http_img" : String) = "") ∧
    (pyStrip "" = "" → ("http_img" : String) ≠ "" →
      ∃ m, chatSend ⟨"a", "ua"⟩ ⟨"b", "ub"⟩ "" "http_img" "m1" 7 = some m) ∧
    (2000 < (pyStrip "").length →
      ∃ m, chatSend ⟨"a", "ua"⟩ ⟨"b", "ub"⟩ "" "http_img" "m1" 7 = some m ∧
        m.text = some (strTake (pyStrip "") 2000) ∧
        (strTake (pyStrip "") 2000).length = 2000) :=
  chatSend_validation ⟨"a", "ua"⟩ ⟨"b", "ub"⟩ "" "http_img" "m1" 7

/-! ### Claim C7: comment and reply creation -/

/-- C7: comment and reply creation reject with the 400 empty-text error
exactly when the stripped text is empty, silently cut text beyond 500
characters to exactly 500 with no error, and persist a notification to the
post author (resp. parent-comment author) precisely when that author differs
from the actor and the notification write succeeds (for replies the code also
requires the stored author name to be non-empty, as every registered username
is). -/
theorem addCommentReply_spec :
    (∀ (st : Store) (post_uid : String) (me : UserRec) (textRaw newUid : String)
        (notifOk : Bool) (post : Post), findPost st post_uid = some post →
      (postAddComment st post_uid me textRaw newUid notifOk = .emptyText ↔
        pyStrip textRaw = "") ∧
      (pyStrip textRaw ≠ "" →
        ∃ st' notifs, postAddComment st post_uid me textRaw newUid notifOk =
          .ok st' ⟨newUid, pyTruncate (pyStrip textRaw) 500, me.username, me.uid⟩ notifs) ∧
      (500 < (pyStrip textRaw).length → (pyTruncate (pyStrip textRaw) 500).length = 500) ∧
      (∀ st' c notifs,
        postAddComment st post_uid me textRaw newUid notifOk = .ok st' c notifs →
        (notifs ≠ [] ↔ post.author_username ≠ me.username ∧ notifOk = true))) ∧
    (∀ (st : Store) (post_uid comment_uid : String) (me : UserRec)
        (textRaw newUid : String) (notifOk : Bool) (post : Post) (parent : CommentRec),
        findPost st post_uid = some post →
        findComment st comment_uid = some parent →
        parent.author_username ≠ "" →
      (postAddReply st post_uid comment_uid me textRaw newUid notifOk = .emptyText ↔
        pyStrip textRaw = "") ∧
      (pyStrip textRaw ≠ "" →
        ∃ st' notifs, postAddReply st post_uid comment_uid me textRaw newUid notifOk =
          .ok st' ⟨newUid, pyTruncate (pyStrip textRaw) 500, me.username, me.uid⟩ notifs) ∧
      (∀ st' c notifs,
        postAddReply st post_uid comment_uid me textRaw newUid notifOk = .ok st' c notifs →
        (notifs ≠ [] ↔ parent.author_username ≠ me.username ∧ notifOk = true))) := by
  constructor
  · intro st post_uid me textRaw newUid notifOk post hfind
    refine ⟨?_, ?_, ?_, ?_⟩
    · simp only [postAddComment, hfind]
      by_cases ht : pyStrip textRaw = ""
      · rw [if_pos ht]
        simp [ht]
      · rw [if_neg ht]
        simp [ht]
    · intro ht
      simp only [postAddComment, hfind]
      rw [if_neg ht]
      exact ⟨_, _, rfl⟩
    · intro hlen
      rw [pyTruncate_length]
      omega
    · intro st' c notifs heq
      simp only [postAddComment, hfind] at heq
      by_cases ht : pyStrip textRaw = ""
      · rw [if_pos ht] at heq
        cases heq
      · rw [if_neg ht] at heq
        injection heq with h1 h2 h3
        rw [← h3]
        by_cases hauth : post.author_username ≠ me.username
        · by_cases hok : notifOk = true
          · simp [hauth, hok]
          · simp [hauth, Bool.of_not_eq_true hok]
        · simp [hauth]
  · intro st post_uid comment_uid me textRaw newUid notifOk post parent hfp hfc hne
    refine ⟨?_, ?_, ?_⟩
    · simp only [postAddReply, hfp, hfc]
      by_cases ht : pyStrip textRaw = ""
      · rw [if_pos ht]
        simp [ht]
      · rw [if_neg ht]
        simp [ht]
    · intro ht
      simp only [postAddReply, hfp, hfc]
      rw [if_neg ht]
      exact ⟨_, _, rfl⟩
    · intro st' c notifs heq
      simp only [postAddReply, hfp, hfc] at heq
      by_cases ht : pyStrip textRaw = ""
      · rw [if_pos ht] at heq
        cases heq
      · rw [if_neg ht] at heq
        injection heq with h1 h2 h3
        rw [← h3]
        by_cases hauth : parent.author_username ≠ me.username
        · by_cases hok : notifOk = true
          · simp [hne, hauth, hok]
          · simp [hne, hauth, Bool.of_not_eq_true hok]
        · simp [hauth]

/-- Concrete instantiation of `addCommentReply_spec`. -/
theorem addCommentReply_spec_witness :
    ((postAddComment twoPostStore "P1" ⟨"u", "uu"⟩ " hola " "c9" true = .emptyText ↔
        pyStrip " hola " = "") ∧
      (pyStrip " hola " ≠ "" →
        ∃ st' notifs, postAddComment twoPostStore "P1" ⟨"u", "uu"⟩ " hola " "c9" true =
          .ok st' ⟨"c9", pyTruncate (pyStrip " hola ") 500,
            "u", "uu"⟩ notifs) ∧
      (500 < (pyStrip " hola ").length →
        (pyTruncate (pyStrip " hola ") 500).length = 500) ∧
      (∀ st' c notifs,
        postAddComment twoPostStore "P1" ⟨"u", "uu"⟩ " hola " "c9" true = .ok st' c notifs →
        (notifs ≠ [] ↔ ("a" : String) ≠ "u" ∧ (true : Bool) = true))) ∧
    ((postAddReply twoPostStore "P1" "c" ⟨"u", "uu"⟩ " hola " "c9" true = .emptyText ↔
        pyStrip " hola " = "") ∧
      (pyStrip " hola " ≠ "" →
        ∃ st' notifs, postAddReply twoPostStore "P1" "c" ⟨"u", "uu"⟩ " hola " "c9" true =
          .ok st' ⟨"c9", pyTruncate (pyStrip " hola ") 500,
            "u", "uu"⟩ notifs) ∧
      (∀ st' c notifs,
        postAddReply twoPostStore "P1" "c" ⟨"u", "uu"⟩ " hola " "c9" true = .ok st' c notifs →
        (notifs ≠ [] ↔ ("b" : String) ≠ "u" ∧ (true : Bool) = true))) :=
  ⟨addCommentReply_spec.1 twoPostStore "P1" ⟨"u", "uu"⟩ " hola " "c9" true
      ⟨"P1", "t1", "a", "ua", [], 2⟩ (by decide),
   addCommentReply_spec.2 twoPostStore "P1" "c" ⟨"u", "uu"⟩ " hola " "c9" true
      ⟨"P1", "t1", "a", "ua", [], 2⟩ ⟨"c", "x", "b", "ub"⟩ (by decide) (by decide)
      (by decide)⟩

/-! ### Claim C8: notification failures are swallowed -/

/-- C8: a failed best-effort notification write never changes the primary
outcome: for like, comment, reply and follow actions the response and the
primary state change are identical whether the notification save succeeds or
fails; only the persisted notification list differs. -/
theorem notifFailure_swallowed :
    (∀ (t : LikeTarget) (u : UserRec),
      (postLikeToggle t u false).1 = (postLikeToggle t u true).1 ∧
      (postLikeToggle t u false).2.1 = (postLikeToggle t u true).2.1) ∧
    (∀ (t : LikeTarget) (u : UserRec),
      (commentLikeToggle t u false).1 = (commentLikeToggle t u true).1 ∧
      (commentLikeToggle t u false).2.1 = (commentLikeToggle t u true).2.1) ∧
    (∀ (st : Store) (post_uid : String) (me : UserRec) (textRaw newUid : String),
      (postAddComment st post_uid me textRaw newUid false).primary =
        (postAddComment st post_uid me textRaw newUid true).primary) ∧
    (∀ (st : Store) (post_uid comment_uid : String) (me : UserRec)
        (textRaw newUid : String),
      (postAddReply st post_uid comment_uid me textRaw newUid false).primary =
        (postAddReply st post_uid comment_uid me textRaw newUid true).primary) ∧
    (∀ (me target : UserRec) (following : List String),
      (followToggle me target following false).map (fun r => (r.1, r.2.1)) =
        (followToggle me target following true).map (fun r => (r.1, r.2.1))) := by
  refine ⟨?_, ?_, ?_, ?_, ?_⟩
  · intro t u
    constructor <;> (simp only [postLikeToggle]; split <;> rfl)
  · intro t u
    constructor <;> (simp only [commentLikeToggle]; split <;> rfl)
  · intro st post_uid me textRaw newUid
    simp only [postAddComment]
    cases hf : findPost st post_uid with
    | none => rfl
    | some post =>
      by_cases ht : pyStrip textRaw = "" <;> simp [ht, AddResult.primary]
  · intro st post_uid comment_uid me textRaw newUid
    simp only [postAddReply]
    cases hf : findPost st post_uid with
    | none => rfl
    | some post =>
      cases hc : findComment st comment_uid with
      | none => rfl
      | some parent =>
        by_cases ht : pyStrip textRaw = "" <;> simp [ht, AddResult.primary]
  · intro me target following
    by_cases h1 : me.username = target.username
    · simp [followToggle, h1]
    · by_cases h2 : target.username ∈ following
      · simp [followToggle, h1, h2]
      · simp [followToggle, h1, h2]

/-! ### Claim C9: replies never check the parent's tree -/

/-- C9: `post_add_reply` only requires that some post with `post_uid` exists
and that the comment with `comment_uid` exists; nothing ties the two, so the
reply is created and attached to the parent comment even when that comment's
ancestor chain resolves to a different post. -/
theorem addReply_ignores_tree (st : Store) (post_uid comment_uid : String)
    (me : UserRec) (textRaw newUid : String) (notifOk : Bool)
    (post : Post) (hpost : findPost st post_uid = some post)
    (parent : CommentRec) (hparent : findComment st comment_uid = some parent)
    (htext : pyStrip textRaw ≠ "")
    (q : String) (hq : ChainResolves st comment_uid (some q)) (hqne : q ≠ post_uid) :
    ∃ notifs, postAddReply st post_uid comment_uid me textRaw newUid notifOk =
      .ok { st with
            comments := st.comments ++ [⟨newUid, pyTruncate (pyStrip textRaw) 500, me.username, me.uid⟩],
            replyEdges := st.replyEdges ++ [(parent.uid, newUid)] }
        ⟨newUid, pyTruncate (pyStrip textRaw) 500, me.username, me.uid⟩ notifs := by
  simp only [postAddReply, hpost, hparent]
  rw [if_neg htext]
  exact ⟨_, rfl⟩

/-- Concrete instantiation of `addReply_ignores_tree`: replying "under post
P1" to a comment that lives in P2's tree still succeeds and attaches to that
comment. -/
theorem addReply_ignores_tree_witness :
    ∃ notifs, postAddReply twoPostStore "P1" "c" ⟨"u", "uu"⟩ "hola" "r1" true =
      .ok { twoPostStore with
            comments := twoPostStore.comments ++ [⟨"r1", pyTruncate (pyStrip "hola") 500, "u", "uu"⟩],
            replyEdges := twoPostStore.replyEdges ++ [("c", "r1")] }
        ⟨"r1", pyTruncate (pyStrip "hola") 500, "u", "uu"⟩ notifs :=
  addReply_ignores_tree twoPostStore "P1" "c" ⟨"u", "uu"⟩ "hola" "r1" true
    ⟨"P1", "t1", "a", "ua", [], 2⟩ (by decide) ⟨"c", "x", "b", "ub"⟩ (by decide)
    (by decide) "P2" (ChainResolves.direct _ "P2" (by decide)) (by decide)

/-! ### Claim C10: the follow notification's target_uid holds a username -/

/-- C10: a follow notification records the actor's username (not a uid) in
`target_uid` with element_type "account", while like, comment and reply
notifications record an entity uid (`post.uid`, `comment.uid`, or the created
comment's uid) with element_type "post"/"comment". -/
theorem notifTargetUid_follow_vs_entity :
    (∀ (me target : UserRec) (following : List String),
      me.username ≠ target.username → target.username ∉ following →
      followToggle me target following true =
        some (true, following ++ [target.username],
          [⟨target.username, target.uid, me.username, me.uid, "follow",
            me.username, "account", false⟩])) ∧
    (∀ (t : LikeTarget) (u : UserRec), u.username ∉ t.likedBy →
      t.author_username ≠ u.username →
      (postLikeToggle t u true).2.2 =
        [⟨t.author_username, t.author_uid, u.username, u.uid, "like_post",
          t.uid, "post", false⟩]) ∧
    (∀ (t : LikeTarget) (u : UserRec), u.username ∉ t.likedBy →
      t.author_username ≠ u.username →
      (commentLikeToggle t u true).2.2 =
        [⟨t.author_username, t.author_uid, u.username, u.uid, "like_comment",
          t.uid, "comment", false⟩]) ∧
    (∀ (st : Store) (post_uid : String) (me : UserRec) (textRaw newUid : String)
        (post : Post),
      findPost st post_uid = some post → pyStrip textRaw ≠ "" →
      post.author_username ≠ me.username →
      ∀ st' c notifs, postAddComment st post_uid me textRaw newUid true = .ok st' c notifs →
      notifs = [⟨post.author_username, post.author_uid, me.username, me.uid,
        "comment_post", newUid, "comment", false⟩]) ∧
    (∀ (st : Store) (post_uid comment_uid : String) (me : UserRec)
        (textRaw newUid : String) (post : Post) (parent : CommentRec),
      findPost st post_uid = some post → findComment st comment_uid = some parent →
      pyStrip textRaw ≠ "" → parent.author_username ≠ "" →
      parent.author_username ≠ me.username →
      ∀ st' c notifs, postAddReply st post_uid comment_uid me textRaw newUid true = .ok st' c notifs →
      notifs = [⟨parent.author_username, parent.author_uid, me.username, me.uid,
        "reply_comment", newUid, "comment", false⟩]) := by
  refine ⟨?_, ?_, ?_, ?_, ?_⟩
  · intro me target following h1 h2
    have hc : following.contains target.username = false := by
      simpa using h2
    simp [followToggle, h1, hc, h2]
  · intro t u hmem hauth
    have ha : t.likedBy.any (fun x => x == u.username) = false := by
      simp only [List.any_eq_false]
      intro x hx
      simp [ne_of_mem_of_not_mem hx hmem]
    simp [postLikeToggle, ha, hauth]
  · intro t u hmem hauth
    have ha : t.likedBy.any (fun x => x == u.username) = false := by
      simp only [List.any_eq_false]
      intro x hx
      simp [ne_of_mem_of_not_mem hx hmem]
    simp [commentLikeToggle, ha, hauth]
  · intro st post_uid me textRaw newUid post hfind ht hauth st' c notifs heq
    simp only [postAddComment, hfind] at heq
    rw [if_neg ht] at heq
    injection heq with h1 h2 h3
    rw [← h3]
    simp [hauth]
  · intro st post_uid comment_uid me textRaw newUid post parent hfp hfc ht hne hauth
      st' c notifs heq
    simp only [postAddReply, hfp, hfc] at heq
    rw [if_neg ht] at heq
    injection heq with h1 h2 h3
    rw [← h3]
    simp [hne, hauth]

/-- Concrete instantiation of `notifTargetUid_follow_vs_entity`. -/
theorem notifTargetUid_follow_vs_entity_witness :
    (followToggle ⟨"u", "uu"⟩ ⟨"b", "ub"⟩ [] true =
      some (true, [] ++ ["b"],
        [⟨"b", "ub", "u", "uu", "follow", "u", "account", false⟩])) ∧
    ((postLikeToggle ⟨"p", "a", "ua", []⟩ ⟨"u", "uu"⟩ true).2.2 =
      [⟨"a", "ua", "u", "uu", "like_post", "p", "post", false⟩]) ∧
    ((commentLikeToggle ⟨"p", "a", "ua", []⟩ ⟨"u", "uu"⟩ true).2.2 =
      [⟨"a", "ua", "u", "uu", "like_comment", "p", "comment", false⟩]) ∧
    ([⟨"a", "ua", "u", "uu", "comment_post", "c9", "comment", false⟩] =
      ([⟨"a", "ua", "u", "uu", "comment_post", "c9", "comment", false⟩] :
        List NotificationRec)) ∧
    ([⟨"b", "ub", "u", "uu", "reply_comment", "r1", "comment", false⟩] =
      ([⟨"b", "ub", "u", "uu", "reply_comment", "r1", "comment", false⟩] :
        List NotificationRec)) :=
  ⟨notifTargetUid_follow_vs_entity.1 ⟨"u", "uu"⟩ ⟨"b", "ub"⟩ [] (by decide) (by decide),
   notifTargetUid_follow_vs_entity.2.1 ⟨"p", "a", "ua", []⟩ ⟨"u", "uu"⟩ (by decide)
     (by decide),
   notifTargetUid_follow_vs_entity.2.2.1 ⟨"p", "a", "ua", []⟩ ⟨"u", "uu"⟩ (by decide)
     (by decide),
   notifTargetUid_follow_vs_entity.2.2.2.1 twoPostStore "P1" ⟨"u", "uu"⟩ "hola" "c9"
     ⟨"P1", "t1", "a", "ua", [], 2⟩ (by decide) (by decide) (by decide)
     ⟨[⟨"P1", "t1", "a", "ua", [], 2⟩, ⟨"P2", "t2", "b", "ub", [], 1⟩],
      [⟨"c", "x", "b", "ub"⟩, ⟨"c9", "hola", "u", "uu"⟩],
      [("P2", "c"), ("P1", "c9")], []⟩
     ⟨"c9", "hola", "u", "uu"⟩
     [⟨"a", "ua", "u", "uu", "comment_post", "c9", "comment", false⟩] (by decide),
   notifTargetUid_follow_vs_entity.2.2.2.2 twoPostStore "P1" "c" ⟨"u", "uu"⟩ "hola" "r1"
     ⟨"P1", "t1", "a", "ua", [], 2⟩ ⟨"c", "x", "b", "ub"⟩ (by decide) (by decide)
     (by decide) (by decide) (by decide)
     ⟨[⟨"P1", "t1", "a", "ua", [], 2⟩, ⟨"P2", "t2", "b", "ub", [], 1⟩],
      [⟨"c", "x", "b", "ub"⟩, ⟨"r1", "hola", "u", "uu"⟩],
      [("P2", "c")], [("c", "r1")]⟩
     ⟨"r1", "hola", "u", "uu"⟩
     [⟨"b", "ub", "u", "uu", "reply_comment", "r1", "comment", false⟩] (by decide)⟩

end UniWeb
